import Mathlib

/-!
Verification development for the vigo request-handling framework.

Shallow embedding of:
  - the per-request continuation pipeline of x.go (Next, Stop, Skip, handleErr),
  - the segment-trie router of router.go (get_subrouter, Set, match, syncCache),
  - the typed argument binder of xparser.go (Parse, setFieldValue, setValueFromString).

Handler bodies are opaque in the source (arbitrary Go functions); here they are
abstracted by their observable behaviour (return normally, return an error, call
Stop or Skip, or terminate abnormally), which is all the dispatch logic inspects.
-/

namespace Vigo

/-! ## Errors (err.go)

The framework error type is a pair of a status code and a message
(vigo.Error with fields Code and Message); other Go errors are plain
strings produced by fmt.Errorf. -/

inductive ErrV where
  /-- a vigo.Error value: Code and Message. -/
  | app (code : Nat) (msg : String)
  /-- a plain Go error (for example one built by fmt.Errorf). -/
  | generic (msg : String)
deriving DecidableEq, Repr

/-- ErrCrash = NewError("crash"): code 400 by default. -/
def errCrash : ErrV := .app 400 "crash"

/-- Error.Error() renders as "code: %d, message: %s". -/
def errString : ErrV → String
  | .app c m => "code: " ++ toString c ++ ", message: " ++ m
  | .generic m => m

/-! ## Handler entries

The registered chain is a []any in the source; each element is one of the
closed set of function shapes of router.go.  The dispatcher only inspects
the shape tag and the returned (value, error) pair, so a handler body is
modelled by its behaviour. -/

/-- Behaviour of a FuncErr (error-handler) body: given the incoming error it
returns nil (handled), the same error, or a replacement error. -/
inductive EHB where
  | passThrough
  | handle
  | replace (e : ErrV)
deriving DecidableEq, Repr

/-- Run a FuncErr body: none models a nil error result. -/
def applyEHB : EHB → ErrV → Option ErrV
  | .passThrough, e => some e
  | .handle, _ => none
  | .replace e2, _ => some e2

/-- Value a Go handler may terminate abnormally with: either an error value
(the recover boundary keeps it as is) or any other value (rendered to text). -/
inductive PVal where
  | errVal (e : ErrV)
  | otherVal (s : String)
deriving DecidableEq, Repr

/-- Behaviour of one of the twelve value-handler shapes
(FuncX2None .. FuncHttp2AnyErr): it may return normally, return an error,
call x.Stop(), call x.Skip(n), or terminate abnormally. -/
inductive HAct where
  | ok
  | err (e : ErrV)
  | stop
  | skip (n : Nat)
  | crashes (v : PVal)
deriving DecidableEq, Repr

/-- One element of a registered chain ([]any in the source). -/
inductive Entry where
  /-- one of the twelve value-handler function shapes. -/
  | plain (a : HAct)
  /-- a FuncErr, invoked only during the error-recovery scan. -/
  | errh (b : EHB)
  /-- a FuncSkipBefore marker. -/
  | skipBefore
  /-- a FuncDescription (string) entry. -/
  | desc (s : String)
deriving DecidableEq, Repr

abbrev Chain := List Entry

/-! ## Dispatcher (x.go: Next, Stop, Skip, handleErr)

State of a run: the cursor x.fid, plus a ghost trace of the indices of the
entries actually invoked (a handler or error-handler body run).  FuncErr and
FuncDescription entries are skipped by Next without invocation (the switch
does nothing for them), matching the source. -/

inductive Outcome where
  /-- Next exhausted the chain without an unrecovered error. -/
  | completed
  /-- handleErr found an error-handler returning nil (returned true). -/
  | handled
  /-- handleErr exhausted the chain; the error is terminal (returned false). -/
  | unhandled (e : ErrV)
  /-- fuel ran out (never happens for the runs considered below). -/
  | fuelOut
deriving DecidableEq, Repr

structure RunOut where
  fid : Nat
  trace : List Nat
  outcome : Outcome
deriving DecidableEq, Repr

/-- The recover boundary in Next: a recovered value that is an error is used
as is; any other value e becomes fmt.Errorf("%s: %v", ErrCrash, e). -/
def panicToErr : PVal → ErrV
  | .errVal e => e
  | .otherVal s => .generic (errString errCrash ++ ": " ++ s)

/-- handleErr of x.go: forward scan from the cursor, invoking only FuncErr
entries; an error-handler returning nil stops the scan as handled; exhausting
the chain leaves the error unhandled.  The cursor is incremented before the
type check, exactly as in the source loop. -/
def handleErrRun : Nat → List Entry → Nat → ErrV → List Nat → RunOut
  | 0, _, fid, _, tr => ⟨fid, tr, .fuelOut⟩
  | fuel+1, fcs, fid, e, tr =>
    match fcs[fid]? with
    | none => ⟨fid, tr, .unhandled e⟩
    | some (.errh b) =>
      match applyEHB b e with
      | none => ⟨fid + 1, tr ++ [fid], .handled⟩
      | some e2 => handleErrRun fuel fcs (fid + 1) e2 (tr ++ [fid])
    | some _ => handleErrRun fuel fcs (fid + 1) e tr

/-- Next of x.go: if the cursor is past the end, return; otherwise take the
entry at the cursor, advance the cursor, invoke the entry according to its
shape, and on error (returned or recovered from an abnormal termination)
switch to handleErr and never resume forward execution; otherwise recurse.
Stop sets the cursor to the sentinel 99999999; Skip(n) adds n to it. -/
def nextRun : Nat → List Entry → Nat → List Nat → RunOut
  | 0, _, fid, tr => ⟨fid, tr, .fuelOut⟩
  | fuel+1, fcs, fid, tr =>
    match fcs[fid]? with
    | none => ⟨fid, tr, .completed⟩
    | some (.plain .ok) => nextRun fuel fcs (fid + 1) (tr ++ [fid])
    | some (.plain (.err e)) => handleErrRun fuel fcs (fid + 1) e (tr ++ [fid])
    | some (.plain .stop) => nextRun fuel fcs 99999999 (tr ++ [fid])
    | some (.plain (.skip n)) => nextRun fuel fcs (fid + 1 + n) (tr ++ [fid])
    | some (.plain (.crashes v)) =>
        handleErrRun fuel fcs (fid + 1) (panicToErr v) (tr ++ [fid])
    | some (.errh _) => nextRun fuel fcs (fid + 1) tr
    | some .skipBefore => nextRun fuel fcs (fid + 1) tr
    | some (.desc _) => nextRun fuel fcs (fid + 1) tr

/-- Recognise the crash-converted errors produced by the recover boundary for
non-error values. -/
def isCrashErrB : ErrV → Bool
  | .generic m => (errString errCrash ++ ": ").isPrefixOf m
  | .app _ _ => false

/-- When the cursor is at or past the end of the chain, Next returns at once
without invoking anything. -/
theorem nextRun_past (fuel : Nat) (fcs : List Entry) (fid : Nat) (tr : List Nat)
    (hf : 0 < fuel) (h : fcs.length ≤ fid) :
    nextRun fuel fcs fid tr = ⟨fid, tr, .completed⟩ := by
  cases fuel with
  | zero => omega
  | succ fuel =>
    rw [nextRun, List.getElem?_eq_none h]

/-- Every index the error-recovery scan adds to the trace points at a FuncErr
entry: the scan invokes only error-handlers. -/
theorem handleErr_trace_errh (fuel : Nat) :
    ∀ (fcs : List Entry) (fid : Nat) (e : ErrV) (tr : List Nat) (j : Nat),
      j ∈ (handleErrRun fuel fcs fid e tr).trace →
      j ∈ tr ∨ ∃ b, fcs[j]? = some (.errh b) := by
  induction fuel with
  | zero => intro fcs fid e tr j h; exact Or.inl h
  | succ fuel ih =>
    intro fcs fid e tr j h
    rw [handleErrRun] at h
    split at h
    · exact Or.inl h
    · rename_i b heq
      split at h
      · rename_i hb
        simp only [RunOut.mk.injEq, List.mem_append, List.mem_singleton] at h
        rcases h with h | h
        · exact Or.inl h
        · subst h; exact Or.inr ⟨b, heq⟩
      · rename_i e2 hb
        rcases ih fcs (fid + 1) e2 (tr ++ [fid]) j h with h2 | h2
        · simp only [List.mem_append, List.mem_singleton] at h2
          rcases h2 with h2 | h2
          · exact Or.inl h2
          · subst h2; exact Or.inr ⟨b, heq⟩
        · exact Or.inr h2
    · exact ih fcs (fid + 1) e tr j h

/-- C3: in a chain [A(returns error E), H1(error-handler passing E through),
H2(error-handler returning nil), rest...], the recovery scan started by the
error of A invokes exactly A, H1 and H2 (trace [0, 1, 2]), ends with the error
handled and the cursor just past H2, and nothing in rest is ever invoked; in
general the scan only ever invokes entries classified as error-handlers. -/
theorem c3_error_recovery_scan :
    (∀ (E : ErrV) (rest : List Entry),
      nextRun 4 (.plain (.err E) :: .errh .passThrough :: .errh .handle :: rest) 0 []
        = ⟨3, [0, 1, 2], .handled⟩)
    ∧ (∀ (fuel : Nat) (fcs : List Entry) (fid : Nat) (e : ErrV) (tr : List Nat) (j : Nat),
        j ∈ (handleErrRun fuel fcs fid e tr).trace →
        j ∈ tr ∨ ∃ b, fcs[j]? = some (.errh b)) := by
  refine ⟨fun E rest => ?_, handleErr_trace_errh⟩
  simp [nextRun, handleErrRun, applyEHB, List.getElem?_cons_zero, List.getElem?_cons_succ]

/-- Witness for c3_error_recovery_scan at a concrete scan. -/
theorem c3_error_recovery_scan_wit :
    (0 : Nat) ∈ ([] : List Nat) ∨ ∃ b, ([Entry.errh .handle])[0]? = some (.errh b) :=
  c3_error_recovery_scan.2 2 [.errh .handle] 0 (.app 400 "e") [] 0 (by decide)

/-! Single-step unfolding lemmas for nextRun and handleErrRun, used to
evaluate runs branch by branch. -/

theorem nextRun_ok {fcs : List Entry} {fid : Nat} {tr : List Nat} {fuel : Nat}
    (hg : fcs[fid]? = some (.plain .ok)) :
    nextRun (fuel + 1) fcs fid tr = nextRun fuel fcs (fid + 1) (tr ++ [fid]) := by
  rw [nextRun, hg]

theorem nextRun_errE {fcs : List Entry} {fid : Nat} {tr : List Nat} {fuel : Nat} {e : ErrV}
    (hg : fcs[fid]? = some (.plain (.err e))) :
    nextRun (fuel + 1) fcs fid tr = handleErrRun fuel fcs (fid + 1) e (tr ++ [fid]) := by
  rw [nextRun, hg]

theorem nextRun_stop {fcs : List Entry} {fid : Nat} {tr : List Nat} {fuel : Nat}
    (hg : fcs[fid]? = some (.plain .stop)) :
    nextRun (fuel + 1) fcs fid tr = nextRun fuel fcs 99999999 (tr ++ [fid]) := by
  rw [nextRun, hg]

theorem nextRun_skip {fcs : List Entry} {fid : Nat} {tr : List Nat} {fuel : Nat} {n : Nat}
    (hg : fcs[fid]? = some (.plain (.skip n))) :
    nextRun (fuel + 1) fcs fid tr = nextRun fuel fcs (fid + 1 + n) (tr ++ [fid]) := by
  rw [nextRun, hg]

theorem nextRun_crashes {fcs : List Entry} {fid : Nat} {tr : List Nat} {fuel : Nat} {v : PVal}
    (hg : fcs[fid]? = some (.plain (.crashes v))) :
    nextRun (fuel + 1) fcs fid tr
      = handleErrRun fuel fcs (fid + 1) (panicToErr v) (tr ++ [fid]) := by
  rw [nextRun, hg]

theorem nextRun_errhE {fcs : List Entry} {fid : Nat} {tr : List Nat} {fuel : Nat} {b : EHB}
    (hg : fcs[fid]? = some (.errh b)) :
    nextRun (fuel + 1) fcs fid tr = nextRun fuel fcs (fid + 1) tr := by
  rw [nextRun, hg]

theorem nextRun_skipB {fcs : List Entry} {fid : Nat} {tr : List Nat} {fuel : Nat}
    (hg : fcs[fid]? = some .skipBefore) :
    nextRun (fuel + 1) fcs fid tr = nextRun fuel fcs (fid + 1) tr := by
  rw [nextRun, hg]

theorem nextRun_descE {fcs : List Entry} {fid : Nat} {tr : List Nat} {fuel : Nat} {s : String}
    (hg : fcs[fid]? = some (.desc s)) :
    nextRun (fuel + 1) fcs fid tr = nextRun fuel fcs (fid + 1) tr := by
  rw [nextRun, hg]

theorem handleErr_none {fcs : List Entry} {fid : Nat} {e : ErrV} {tr : List Nat} {fuel : Nat}
    (hg : fcs[fid]? = none) :
    handleErrRun (fuel + 1) fcs fid e tr = ⟨fid, tr, .unhandled e⟩ := by
  rw [handleErrRun, hg]

theorem handleErr_handled {fcs : List Entry} {fid : Nat} {e : ErrV} {tr : List Nat}
    {fuel : Nat} {b : EHB}
    (hg : fcs[fid]? = some (.errh b)) (hb : applyEHB b e = none) :
    handleErrRun (fuel + 1) fcs fid e tr = ⟨fid + 1, tr ++ [fid], .handled⟩ := by
  rw [handleErrRun, hg]
  simp only [hb]

theorem handleErr_continue {fcs : List Entry} {fid : Nat} {e : ErrV} {tr : List Nat}
    {fuel : Nat} {b : EHB} {e2 : ErrV}
    (hg : fcs[fid]? = some (.errh b)) (hb : applyEHB b e = some e2) :
    handleErrRun (fuel + 1) fcs fid e tr = handleErrRun fuel fcs (fid + 1) e2 (tr ++ [fid]) := by
  rw [handleErrRun, hg]
  simp only [hb]

theorem handleErr_plain {fcs : List Entry} {fid : Nat} {e : ErrV} {tr : List Nat}
    {fuel : Nat} {a : HAct}
    (hg : fcs[fid]? = some (.plain a)) :
    handleErrRun (fuel + 1) fcs fid e tr = handleErrRun fuel fcs (fid + 1) e tr := by
  rw [handleErrRun, hg]

theorem handleErr_skipB {fcs : List Entry} {fid : Nat} {e : ErrV} {tr : List Nat} {fuel : Nat}
    (hg : fcs[fid]? = some .skipBefore) :
    handleErrRun (fuel + 1) fcs fid e tr = handleErrRun fuel fcs (fid + 1) e tr := by
  rw [handleErrRun, hg]

theorem handleErr_desc {fcs : List Entry} {fid : Nat} {e : ErrV} {tr : List Nat}
    {fuel : Nat} {s : String}
    (hg : fcs[fid]? = some (.desc s)) :
    handleErrRun (fuel + 1) fcs fid e tr = handleErrRun fuel fcs (fid + 1) e tr := by
  rw [handleErrRun, hg]

/-- C4: in a chain [A, B, C] where B calls Stop(), whenever B is actually
invoked (index 1 appears in the trace) the entry C at index 2 is never
invoked; concretely, after a normally-returning A the run ends with the
cursor at the sentinel 99999999 having invoked exactly A and B; and in
general a cursor at or past the chain length makes every further Next call
a no-op. -/
theorem c4_stop_short_circuit :
    (∀ (A C : Entry),
      1 ∈ (nextRun 10 [A, .plain .stop, C] 0 []).trace →
      2 ∉ (nextRun 10 [A, .plain .stop, C] 0 []).trace)
    ∧ (∀ (C : Entry),
        nextRun 10 [.plain .ok, .plain .stop, C] 0 [] = ⟨99999999, [0, 1], .completed⟩)
    ∧ (∀ (fuel : Nat) (fcs : List Entry) (fid : Nat) (tr : List Nat),
        0 < fuel → fcs.length ≤ fid → nextRun fuel fcs fid tr = ⟨fid, tr, .completed⟩) := by
  have hscan : ∀ (A C : Entry) (e : ErrV),
      1 ∉ (handleErrRun 8 [A, .plain .stop, C] 2 e [0]).trace := by
    intro A C e
    rcases C with ca | cb | _ | cs
    · rw [handleErr_plain rfl, handleErr_none rfl]; simp
    · rcases hb : applyEHB cb e with _ | e2
      · rw [handleErr_handled rfl hb]; simp
      · rw [handleErr_continue rfl hb, handleErr_none rfl]; simp
    · rw [handleErr_skipB rfl, handleErr_none rfl]; simp
    · rw [handleErr_desc rfl, handleErr_none rfl]; simp
  refine ⟨?_, ?_, fun fuel fcs fid tr hf h => nextRun_past fuel fcs fid tr hf h⟩
  · intro A C
    rcases A with ⟨_ | e | _ | n | v⟩ | b | _ | s
    · rw [nextRun_ok rfl, nextRun_stop rfl,
        nextRun_past _ _ _ _ (by omega)
          (by simp only [List.length_cons, List.length_nil]; omega)]
      simp
    · rw [nextRun_errE rfl, handleErr_plain rfl]
      intro h1
      exact absurd h1 (by simpa using hscan (.plain (.err e)) C e)
    · rw [nextRun_stop rfl,
        nextRun_past _ _ _ _ (by omega)
          (by simp only [List.length_cons, List.length_nil]; omega)]
      simp
    · rcases n with _ | _ | m
      · rw [nextRun_skip rfl]
        rw [show (0 + 1 + 0 : Nat) = 1 from rfl, nextRun_stop rfl,
          nextRun_past _ _ _ _ (by omega)
            (by simp only [List.length_cons, List.length_nil]; omega)]
        simp
      · rw [nextRun_skip rfl, show (0 + 1 + 1 : Nat) = 2 from rfl]
        intro h1
        exfalso
        rcases C with ca | cb | _ | cs
        · rcases ca with _ | e2 | _ | n2 | v2
          · rw [nextRun_ok rfl,
              nextRun_past _ _ _ _ (by omega)
                (by simp only [List.length_cons, List.length_nil]; omega)] at h1
            simp at h1
          · rw [nextRun_errE rfl, handleErr_none rfl] at h1
            simp at h1
          · rw [nextRun_stop rfl,
              nextRun_past _ _ _ _ (by omega)
                (by simp only [List.length_cons, List.length_nil]; omega)] at h1
            simp at h1
          · rw [nextRun_skip rfl,
              nextRun_past _ _ _ _ (by omega)
                (by simp only [List.length_cons, List.length_nil]; omega)] at h1
            simp at h1
          · rw [nextRun_crashes rfl, handleErr_none rfl] at h1
            simp at h1
        · rw [nextRun_errhE rfl,
            nextRun_past _ _ _ _ (by omega)
              (by simp only [List.length_cons, List.length_nil]; omega)] at h1
          simp at h1
        · rw [nextRun_skipB rfl,
            nextRun_past _ _ _ _ (by omega)
              (by simp only [List.length_cons, List.length_nil]; omega)] at h1
          simp at h1
        · rw [nextRun_descE rfl,
            nextRun_past _ _ _ _ (by omega)
              (by simp only [List.length_cons, List.length_nil]; omega)] at h1
          simp at h1
      · intro h1
        rw [nextRun_skip rfl,
          nextRun_past _ _ _ _ (by omega)
            (by simp only [List.length_cons, List.length_nil]; omega)] at h1
        simp at h1
    · rw [nextRun_crashes rfl, handleErr_plain rfl]
      intro h1
      exact absurd h1 (by simpa using hscan (.plain (.crashes v)) C (panicToErr v))
    · rw [nextRun_errhE rfl, nextRun_stop rfl,
        nextRun_past _ _ _ _ (by omega)
          (by simp only [List.length_cons, List.length_nil]; omega)]
      simp
    · rw [nextRun_skipB rfl, nextRun_stop rfl,
        nextRun_past _ _ _ _ (by omega)
          (by simp only [List.length_cons, List.length_nil]; omega)]
      simp
    · rw [nextRun_descE rfl, nextRun_stop rfl,
        nextRun_past _ _ _ _ (by omega)
          (by simp only [List.length_cons, List.length_nil]; omega)]
      simp
  · intro C
    rw [nextRun_ok rfl, nextRun_stop rfl,
      nextRun_past _ _ _ _ (by omega)
        (by simp only [List.length_cons, List.length_nil]; omega)]
    simp

/-- Witness for c4_stop_short_circuit at concrete chains. -/
theorem c4_stop_short_circuit_wit :
    ((2 : Nat) ∉ (nextRun 10 [.plain .ok, .plain .stop, .plain .ok] 0 []).trace)
    ∧ nextRun 3 ([] : List Entry) 5 [] = ⟨5, [], .completed⟩ :=
  ⟨c4_stop_short_circuit.1 (.plain .ok) (.plain .ok) (by decide),
   c4_stop_short_circuit.2.2 3 [] 5 [] (by decide) (by decide)⟩

/-- C8 (amended): the recovery boundary around every handler invocation
catches an abnormal termination, feeds the recovered value into the same
forward error-recovery scan, and never resumes at the invocation site; a
non-error recovered value is converted into a crash error
(fmt.Errorf prefixed by ErrCrash), while an error recovered value is
propagated to the scan unchanged, without any crash wrapping. -/
theorem c8_recovery_boundary_amended :
    (∀ (fuel : Nat) (fcs : List Entry) (fid : Nat) (tr : List Nat) (v : PVal),
      fcs[fid]? = some (.plain (.crashes v)) →
      nextRun (fuel + 1) fcs fid tr
        = handleErrRun fuel fcs (fid + 1) (panicToErr v) (tr ++ [fid]))
    ∧ (∀ s, panicToErr (.otherVal s) = .generic (errString errCrash ++ ": " ++ s))
    ∧ (∀ e, panicToErr (.errVal e) = e) :=
  ⟨fun _ _ _ _ _ hg => nextRun_crashes hg, fun _ => rfl, fun _ => rfl⟩

/-- Counterexample for C8 as stated: a handler terminating abnormally with an
error value (here a 404 error) reaches the recovery scan as that very error,
not as an internal-crash error. -/
theorem c8_recovery_boundary_cex :
    nextRun 2 [.plain (.crashes (.errVal (.app 404 "not found")))] 0 []
      = ⟨1, [0], .unhandled (.app 404 "not found")⟩
    ∧ isCrashErrB (.app 404 "not found") = false := by
  exact ⟨rfl, rfl⟩

/-- Witness for c8_recovery_boundary_amended at a concrete crash. -/
theorem c8_recovery_boundary_wit :
    nextRun 3 [.plain (.crashes (.otherVal "boom"))] 0 []
      = handleErrRun 2 [.plain (.crashes (.otherVal "boom"))] 1
          (panicToErr (.otherVal "boom")) [0] :=
  c8_recovery_boundary_amended.1 2 [.plain (.crashes (.otherVal "boom"))] 0 []
    (.otherVal "boom") rfl

/-! ## Binder (xparser.go: Parse, setFieldValue, setValueFromString)

The binder reads one target struct field at a time.  The embedding covers the
string and int field kinds exercised by the spec scenarios (other kinds, file
uploads and the raw-JSON decode path go through the same setFieldValue
skeleton).  A field value here is the value/found pair computed by the source
switch: none models found = false. -/

/-- strings.Split with a one-character separator, over character lists. -/
def splitOnCharL (sep : Char) : List Char → List (List Char)
  | [] => [[]]
  | c :: rest =>
    if c = sep then [] :: splitOnCharL sep rest
    else
      match splitOnCharL sep rest with
      | s :: ss => (c :: s) :: ss
      | [] => [[c]]

/-- strings.HasPrefix over character lists. -/
def hasPrefixL : List Char → List Char → Bool
  | [], _ => true
  | _ :: _, [] => false
  | p :: ps, c :: cs => p = c && hasPrefixL ps cs

/-- strings.ReplaceAll(input, "ID", "Id"): non-overlapping left-to-right. -/
def replaceIDIdL : List Char → List Char
  | 'I' :: 'D' :: rest => 'I' :: 'd' :: replaceIDIdL rest
  | c :: rest => c :: replaceIDIdL rest
  | [] => []

/-- CamelToSnake of utils/strings.go: replace "ID" with "Id", then lowercase
every upper-case letter, preceded by an underscore unless it is the first
character. -/
def camelSnakeGo : List Char → Nat → List Char
  | [], _ => []
  | c :: rest, i =>
    if c.isUpper then
      (if 0 < i then ['_'] else []) ++ [c.toLower] ++ camelSnakeGo rest (i + 1)
    else c :: camelSnakeGo rest (i + 1)

def camelToSnake (s : String) : String :=
  String.mk (camelSnakeGo (replaceIDIdL s.toList) 0)

/-- Field kind of the target struct (reflect.Kind of the field or of the
pointee for pointer fields). -/
inductive FKind where
  | fstr
  | fint
deriving DecidableEq, Repr

/-- One struct field with its tags, as read by Parse: parse tag (source kind,
possibly with an @alias), json tag, default tag, pointer-ness. -/
structure GField where
  name : String
  jsonTag : String := ""
  parseTag : String := ""
  defaultTag : String := ""
  kind : FKind
  isPointer : Bool := false
deriving Repr

/-- Raw value handed to setFieldValue: a single string or a list of strings
(the query/form sources produce all values for string-collection fields). -/
inductive PV where
  | vstr (s : String)
  | vstrs (l : List String)
deriving DecidableEq, Repr

/-- Result of binding one field: left unset (nil pointer), or set to a
string or int value. -/
inductive FieldRes where
  | unset
  | vs (s : String)
  | vi (n : Int)
deriving DecidableEq, Repr

/-- Causes of a per-field failure inside setFieldValue / setValue /
setValueFromString, mirroring the error messages of the source. -/
inductive FieldErr where
  /-- "required field missing". -/
  | requiredMissing
  /-- strconv.ParseInt failure inside convertToInt. -/
  | intParse (raw : String)
  /-- "cannot parse d as int" from setValueFromString on a default literal. -/
  | defaultIntParse (raw : String)
  /-- "cannot convert T to ..." conversion failures. -/
  | convertFail
deriving DecidableEq, Repr

/-- strconv.ParseInt(s, 10, 64): optional sign, non-empty digit run,
64-bit signed range. -/
def parseInt64? (s : String) : Option Int :=
  let cs := s.toList
  let sd : Int × List Char :=
    match cs with
    | '+' :: rest => (1, rest)
    | '-' :: rest => (-1, rest)
    | _ => (1, cs)
  if sd.2 = [] then none
  else if sd.2.all (fun c => c.isDigit) then
    let n : Nat := sd.2.foldl (fun acc c => acc * 10 + (c.toNat - 48)) 0
    let v : Int := sd.1 * n
    if -(2 ^ 63) ≤ v ∧ v ≤ 2 ^ 63 - 1 then some v else none
  else none

/-- convertToString: a string copies; a []string cannot convert. -/
def convertToString : PV → Except FieldErr String
  | .vstr s => .ok s
  | .vstrs _ => .error .convertFail

/-- convertToInt: a string goes through strconv.ParseInt; a []string cannot
convert. -/
def convertToInt : PV → Except FieldErr Int
  | .vstr s =>
    match parseInt64? s with
    | some n => .ok n
    | none => .error (.intParse s)
  | .vstrs _ => .error .convertFail

/-- setValue of xparser.go restricted to the modelled kinds: dispatch on the
field kind and convert (pointer fields are allocated and then set the same
way, so the result value is identical). -/
def setValue (k : FKind) (v : PV) : Except FieldErr FieldRes :=
  match k with
  | .fstr => (convertToString v).map .vs
  | .fint => (convertToInt v).map .vi

/-- setValueFromString of xparser.go restricted to the modelled kinds: decode
a default literal; for a pointer field a fresh pointee is allocated first, so
the field never stays unset on this path. -/
def setValueFromString (k : FKind) (s : String) : Except FieldErr FieldRes :=
  match k with
  | .fstr => .ok (.vs s)
  | .fint =>
    match parseInt64? s with
    | some n => .ok (.vi n)
    | none => .error (.defaultIntParse s)

/-- setFieldValue of xparser.go: a field is required when it is not a pointer
and has no default tag.  With no value found: a non-empty default tag decodes
the default literal (for pointer and non-pointer fields alike); otherwise a
required field fails and an optional one is left unset.  With a value found
it is converted by the type-directed step. -/
def setFieldValue (f : GField) (v : Option PV) : Except FieldErr FieldRes :=
  let isRequired := !f.isPointer && f.defaultTag == ""
  match v with
  | none =>
    if f.defaultTag ≠ "" then setValueFromString f.kind f.defaultTag
    else if isRequired then .error .requiredMissing
    else .ok .unset
  | some v => setValue f.kind v

/-- Resolved (source kind, lookup key) of one field: parse tag defaults to
json; the field name comes from the json tag, else from CamelToSnake of the
Go field name; an @alias in the parse tag overrides the name; options after
a comma in the name are stripped. -/
def resolveKey (f : GField) : String × String :=
  let parseTag := (if f.parseTag == "" then "json" else f.parseTag).toList
  let fieldName := (if f.jsonTag == "" then camelToSnake f.name else f.jsonTag).toList
  let parts := splitOnCharL '@' parseTag
  let parseTag2 := if 1 < parts.length then parts.headD parseTag else parseTag
  let fieldName2 := if 1 < parts.length then (parts.drop 1).headD fieldName else fieldName
  let fieldName3 := (splitOnCharL ',' fieldName2).headD fieldName2
  (String.mk parseTag2, String.mk fieldName3)

/-- The per-request data the binder reads: bound path parameters, parsed
query values, headers, parsed form values and the lazily parsed top-level
JSON object (none when the body is not JSON). -/
structure PReq where
  params : List (String × String) := []
  query : List (String × List String) := []
  headers : List (String × String) := []
  form : List (String × List String) := []
  jsonData : Option (List (String × PV)) := none
deriving Repr

def lookupA {α : Type} (l : List (String × α)) (k : String) : Option α :=
  (l.find? (fun p => p.1 == k)).map (fun p => p.2)

/-- The value-extraction switch of Parse: query and form read the first value
(all values only for string-collection fields, a kind not modelled here);
header reads the first header value (absent or empty means not found);
path reads the already-bound parameter list; json looks the key up in the
parsed top-level object.  An unrecognised parse tag leaves the value unset. -/
def extractValue (req : PReq) (parseTag : String) (fieldName : String) : Option PV :=
  if parseTag == "json" then
    match req.jsonData with
    | some m => lookupA m fieldName
    | none => none
  else if parseTag == "form" then
    match lookupA req.form fieldName with
    | some vs => if 0 < vs.length then some (.vstr (vs.headD "")) else none
    | none => none
  else if parseTag == "query" then
    match lookupA req.query fieldName with
    | some vs => if 0 < vs.length then some (.vstr (vs.headD "")) else none
    | none => none
  else if hasPrefixL "header".toList parseTag.toList then
    match lookupA req.headers fieldName with
    | some h => if h ≠ "" then some (.vstr h) else none
    | none => none
  else if hasPrefixL "path".toList parseTag.toList then
    (lookupA req.params fieldName).map .vstr
  else none

/-- Parse error: parserErr.WithArgs(fieldName, err), a conflict-status error
naming the failing field and the underlying cause. -/
inductive ParseErr where
  | argErr (field : String) (cause : FieldErr)
deriving DecidableEq, Repr

/-- The per-field loop of Parse: resolve the key, extract the raw value,
run setFieldValue, and stop at the first failing field; on success the bound
value of every field is recorded under the Go field name. -/
def parseFields (req : PReq) : List GField → Except ParseErr (List (String × FieldRes))
  | [] => .ok []
  | f :: rest =>
    let pk := resolveKey f
    let v := extractValue req pk.1 pk.2
    match setFieldValue f v with
    | .error e => .error (.argErr pk.2 e)
    | .ok res =>
      match parseFields req rest with
      | .error e => .error e
      | .ok tail => .ok ((f.name, res) :: tail)

/-- The spec scenario target: a required (non-pointer) string query field q
and an optional (pointer) int query field n. -/
def qField : GField := { name := "Q", jsonTag := "q", parseTag := "query", kind := .fstr }

def nField : GField :=
  { name := "N", jsonTag := "n", parseTag := "query", kind := .fint, isPointer := true }

/-- C7: against the target with required string query field q and optional
pointer-int query field n, a request with only q=hello binds q and leaves n
unset; a request with q omitted fails with the missing-required-argument
error naming q; a request with q=hello and n=abc fails with the
invalid-int-argument error naming n and the raw text abc. -/
theorem c7_binder_required_optional :
    parseFields { query := [("q", ["hello"])] } [qField, nField]
      = .ok [("Q", .vs "hello"), ("N", .unset)]
    ∧ parseFields { query := [] } [qField, nField]
      = .error (.argErr "q" .requiredMissing)
    ∧ parseFields { query := [("q", ["hello"]), ("n", ["abc"])] } [qField, nField]
      = .error (.argErr "n" (.intParse "abc")) :=
  ⟨rfl, rfl, rfl⟩

/-- A pointer-int field with a default tag, used to witness C10. -/
def pDefField : GField :=
  { name := "P", jsonTag := "p", parseTag := "query", defaultTag := "5",
    kind := .fint, isPointer := true }

/-- C10: for every optional (pointer) field with a non-empty default tag,
an absent value does not leave the field unset: setFieldValue runs the
default literal through the type-directed decode (setValueFromString), which
allocates the pointee and never yields an unset field; concretely a
pointer-int query field with default 5 and no query value binds to 5. -/
theorem c10_default_on_optional (f : GField) (hd : f.defaultTag ≠ "") :
    setFieldValue f none = setValueFromString f.kind f.defaultTag
    ∧ (∀ res : FieldRes, setValueFromString f.kind f.defaultTag = .ok res → res ≠ .unset)
    ∧ parseFields {} [pDefField] = .ok [("P", .vi 5)] := by
  refine ⟨?_, ?_, rfl⟩
  · rw [setFieldValue, if_pos hd]
  · intro res h
    cases hk : f.kind with
    | fstr =>
      rw [hk, setValueFromString] at h
      cases h
      simp
    | fint =>
      rw [hk, setValueFromString] at h
      cases hp : parseInt64? f.defaultTag with
      | none => rw [hp] at h; cases h
      | some n => rw [hp] at h; cases h; simp

/-- Witness for c10_default_on_optional at the concrete pointer-int field. -/
theorem c10_default_on_optional_wit :
    setFieldValue pDefField none = setValueFromString pDefField.kind pDefField.defaultTag
    ∧ FieldRes.vi 5 ≠ FieldRes.unset :=
  ⟨(c10_default_on_optional pDefField (by decide)).1,
   (c10_default_on_optional pDefField (by decide)).2.1 (.vi 5) rfl⟩

/-! ## Router (router.go: route, get_subrouter, Set, match, syncCache)

A route node holds its path fragment, its own before/after middleware
(funcBefore/funcAfter), the per-method handler chains, the cached composed
chains, the literal children (a map keyed by the child fragment, modelled as
a list of children looked up by their fragment), and at most one named
(colon) and one wildcard child.  The parent back-reference of the source is
replaced by passing the list of (funcBefore, funcAfter) pairs of the node
and its ancestors, ordered node first and root last, exactly the order in
which syncCache walks the parent chain. -/

inductive RTree where
  | node (fragment : List Char) (funcBefore funcAfter : Chain)
      (handlers handlersCache : List (String × Chain))
      (subRouters : List RTree) (colon wildcard : Option RTree)

def RTree.frag : RTree → List Char
  | .node f _ _ _ _ _ _ _ => f

def RTree.fb : RTree → Chain
  | .node _ b _ _ _ _ _ _ => b

def RTree.fa : RTree → Chain
  | .node _ _ a _ _ _ _ _ => a

def RTree.handlers : RTree → List (String × Chain)
  | .node _ _ _ h _ _ _ _ => h

def RTree.cache : RTree → List (String × Chain)
  | .node _ _ _ _ c _ _ _ => c

def RTree.subs : RTree → List RTree
  | .node _ _ _ _ _ s _ _ => s

def RTree.colon : RTree → Option RTree
  | .node _ _ _ _ _ _ c _ => c

def RTree.wild : RTree → Option RTree
  | .node _ _ _ _ _ _ _ w => w

/-- Go map lookup r.handlers[m]: an absent key yields the nil (empty) slice. -/
def hget (l : List (String × Chain)) (m : String) : Chain :=
  match l.find? (fun p => p.1 == m) with
  | some p => p.2
  | none => []

def hhas (l : List (String × Chain)) (m : String) : Bool :=
  (l.find? (fun p => p.1 == m)).isSome

/-- Go map assignment handlers[m] = c. -/
def hset (l : List (String × Chain)) (m : String) (c : Chain) : List (String × Chain) :=
  if hhas l m then l.map (fun p => if p.1 == m then (p.1, c) else p) else l ++ [(m, c)]

/-- subRouters lookup by the fragment key. -/
def findSub (l : List RTree) (s : List Char) : Option RTree :=
  l.find? (fun t => t.frag == s)

/-- The accumulator loop of syncCache walking from the node up to the root:
before = tmpr.funcBefore ++ before and after = after ++ tmpr.funcAfter at
every step, so before ends up in root-to-node order and after in
node-to-root order. -/
def collectBA (up : List (Chain × Chain)) : Chain × Chain :=
  up.foldl (fun acc ba => (ba.1 ++ acc.1, acc.2 ++ ba.2)) ([], [])

def isSkipB : Entry → Bool
  | .skipBefore => true
  | _ => false

/-- The skipIdx loop of syncCache: index of the last FuncSkipBefore entry. -/
def lastSkipIdxFrom : Chain → Nat → Option Nat
  | [], _ => none
  | e :: rest, i =>
    match lastSkipIdxFrom rest (i + 1) with
    | some j => some j
    | none => if isSkipB e then some i else none

def lastSkipIdx (l : Chain) : Option Nat :=
  lastSkipIdxFrom l 0

/-- Everything before and including the last skip-before marker is dropped. -/
def truncSkip (l : Chain) : Chain :=
  match lastSkipIdx l with
  | some i => l.drop (i + 1)
  | none => l

/-- The per-method cache rebuild of syncCache:
cache[k] = before ++ handlers[k] ++ after, then skip-before truncation. -/
def computeCache (handlers : List (String × Chain)) (up : List (Chain × Chain)) :
    List (String × Chain) :=
  let ba := collectBA up
  handlers.map (fun p => (p.1, truncSkip (ba.1 ++ p.2 ++ ba.2)))

/-- syncCache: recompute the cache of a node from its own handlers and the
middleware of the node and its ancestors, then recurse into the literal,
colon and wildcard children (whose ancestor chain gains this node).  The
fuel bounds the tree depth. -/
def syncDown : Nat → RTree → List (Chain × Chain) → RTree
  | 0, r, _ => r
  | fuel+1, .node frag fb fa handlers _cache subs colon wild, up =>
    let myUp := (fb, fa) :: up
    .node frag fb fa handlers (computeCache handlers myUp)
      (subs.map (fun s => syncDown fuel s myUp))
      (colon.map (fun c => syncDown fuel c myUp))
      (wild.map (fun w => syncDown fuel w myUp))

/-- A fresh route node for a pattern fragment. -/
def newNode (frag : List Char) : RTree :=
  .node frag [] [] [] [] [] none none

/-- The empty root router of NewRouter(): blank fragment, no children. -/
def root0 : RTree :=
  .node [] [] [] [] [] [] none none

/-- Registration warnings: a variable-path conflict between two different
named (or wildcard) fragments at one position, or re-registration of an
existing (pattern, method) pair. -/
inductive RWarn where
  | varConflict (a b : List Char)
  | handlerExists
deriving DecidableEq, Repr

/-- The handler-attachment tail of Set: warn when handlers for the method
already exist, overwrite them, and recompute the caches of the whole subtree
of the node (syncCache). -/
def attachHandlers (fuel : Nat) (t : RTree) (m : String) (hs : Chain)
    (up : List (Chain × Chain)) : RTree × List RWarn :=
  match t with
  | .node frag fb fa handlers cache subs colon wild =>
    let warns : List RWarn := if hhas handlers m then [.handlerExists] else []
    (syncDown fuel (.node frag fb fa (hset handlers m hs) cache subs colon wild) up, warns)

/-- get_subrouter fused with the handler attachment of Set: descend the
pattern fragment by fragment.  An empty fragment is the "//" assertion
failure (none).  A wildcard fragment attaches at the single wildcard child
and terminates the descent, discarding any remaining fragments; a different
wildcard name warns (and the warning formatting dereferences last.colon, so
a nil colon is an abnormal termination, modelled none).  A colon fragment
descends into the single colon child; a different name warns and the first
name wins.  A literal fragment descends into the literal child of that
fragment, creating it if needed. -/
def regAt (fuel : Nat) : RTree → List (List Char) → String → Chain →
    List (Chain × Chain) → Option (RTree × List RWarn)
  | r, [], m, hs, up => some (attachHandlers fuel r m hs up)
  | .node frag fb fa handlers cache subs colon wild, seg :: rest, m, hs, up =>
    if seg = [] then none
    else if seg.headD ' ' = '*' then
      match wild with
      | some w =>
        if w.frag ≠ seg then
          match colon with
          | none => none
          | some c =>
            let aw := attachHandlers fuel w m hs ((fb, fa) :: up)
            some (.node frag fb fa handlers cache subs colon (some aw.1),
                  .varConflict c.frag seg :: aw.2)
        else
          let aw := attachHandlers fuel w m hs ((fb, fa) :: up)
          some (.node frag fb fa handlers cache subs colon (some aw.1), aw.2)
      | none =>
        let aw := attachHandlers fuel (newNode seg) m hs ((fb, fa) :: up)
        some (.node frag fb fa handlers cache subs colon (some aw.1), aw.2)
    else if seg.headD ' ' = ':' then
      match colon with
      | some c =>
        let w0 : List RWarn := if c.frag ≠ seg then [.varConflict c.frag seg] else []
        match regAt fuel c rest m hs ((fb, fa) :: up) with
        | some cr => some (.node frag fb fa handlers cache subs (some cr.1) wild, w0 ++ cr.2)
        | none => none
      | none =>
        match regAt fuel (newNode seg) rest m hs ((fb, fa) :: up) with
        | some cr => some (.node frag fb fa handlers cache subs (some cr.1) wild, cr.2)
        | none => none
    else
      match findSub subs seg with
      | some t =>
        match regAt fuel t rest m hs ((fb, fa) :: up) with
        | some tr2 =>
          some (.node frag fb fa handlers cache
                  (subs.map (fun s => if s.frag == seg then tr2.1 else s)) colon wild, tr2.2)
        | none => none
      | none =>
        match regAt fuel (newNode seg) rest m hs ((fb, fa) :: up) with
        | some tr2 =>
          some (.node frag fb fa handlers cache (subs ++ [tr2.1]) colon wild, tr2.2)
        | none => none

/-- The fragment split of get_subrouter: strip one leading slash, ensure a
trailing slash, cut a fragment at every slash ("" and "/" address the node
itself). -/
def splitPath (u : List Char) : List (List Char) :=
  if u = [] ∨ u = ['/'] then []
  else
    let u1 := match u with | '/' :: r => r | _ => u
    let u2 := if u1.getLast? = some '/' then u1.dropLast else u1
    splitOnCharL '/' u2

def allowedMethodsL : List String :=
  ["GET", "HEAD", "POST", "PUT", "PATCH", "DELETE", "CONNECT",
   "OPTIONS", "TRACE", "PROPFIND", "ANY"]

def isDescE : Entry → Bool
  | .desc _ => true
  | _ => false

/-- Set of router.go: uppercase the method, require a supported method and
at least one handler argument (assertions, modelled none), keep only the
recognised function shapes in the chain (a description string becomes
metadata, not a chain entry), then descend and attach.  The root router has
a blank fragment, so the wildcard self-registration special case of Set does
not apply here. -/
def rSet (fuel : Nat) (root : RTree) (url : String) (method : String) (handlers : Chain) :
    Option (RTree × List RWarn) :=
  let m := String.mk (method.toList.map Char.toUpper)
  if !(allowedMethodsL.contains m) then none
  else if handlers.length = 0 then none
  else regAt fuel root (splitPath url.toList) m (handlers.filter (fun e => !isDescE e)) []

/-- The segment cut of match: the fragment before the first slash and the
rest after it (with one separating slash dropped). -/
def matchSeg (u : List Char) : List Char × List Char :=
  let seg := u.takeWhile (fun c => !(c = '/'))
  let rest := u.drop seg.length
  let rest2 := match rest with | '/' :: r2 => r2 | _ => rest
  (seg, rest2)

/-- setParam of x.go: the range loop mutates a copy of the pair, so an
existing key keeps its old value and the loop returns; only a missing key
appends a new (key, value) pair. -/
def setParamGo (ps : List (String × String)) (k v : String) : List (String × String) :=
  if ps.any (fun p => p.1 == k) then ps else ps ++ [(k, v)]

def fragParam (f : List Char) : String :=
  String.mk (f.drop 1)

/-- match of router.go: on an exhausted path serve this node (exact method
first, then ANY), else its wildcard child with an empty remainder; otherwise
cut one segment and try, in order, the literal child of that fragment
(recursively), the colon child (recursively, binding the segment afterward),
and the wildcard child (binding the entire remaining path and ending the
walk).  Returns the resolved node, its cached chain and the bound
parameters. -/
def rmatch : Nat → RTree → List Char → String → List (String × String) →
    Option (RTree × Chain × List (String × String))
  | 0, _, _, _, _ => none
  | fuel+1, r, u, m, ps =>
    match r with
    | .node _frag _fb _fa handlers cache subs colon wild =>
      if u = [] ∨ u = ['/'] then
        if 0 < (hget handlers m).length then some (r, hget cache m, ps)
        else if 0 < (hget handlers "ANY").length then some (r, hget cache "ANY", ps)
        else
          match wild with
          | some w =>
            if 0 < (hget w.handlers m).length then
              some (w, hget w.cache m, setParamGo ps (fragParam w.frag) "")
            else if 0 < (hget w.handlers "ANY").length then
              some (w, hget w.cache "ANY", setParamGo ps (fragParam w.frag) "")
            else none
          | none => none
      else
        let sp := matchSeg u
        let litRes :=
          match findSub subs sp.1 with
          | some subr => rmatch fuel subr sp.2 m ps
          | none => none
        match litRes with
        | some res => some res
        | none =>
          let colonRes :=
            match colon with
            | some c =>
              match rmatch fuel c sp.2 m ps with
              | some (t, fcs, ps2) =>
                some (t, fcs, setParamGo ps2 (fragParam c.frag) (String.mk sp.1))
              | none => none
            | none => none
          match colonRes with
          | some res => some res
          | none =>
            match wild with
            | some w =>
              if 0 < (hget w.handlers m).length then
                some (w, hget w.cache m, setParamGo ps (fragParam w.frag) (String.mk u))
              else if 0 < (hget w.handlers "ANY").length then
                some (w, hget w.cache "ANY", setParamGo ps (fragParam w.frag) (String.mk u))
              else none
            | none => none

/-- ServeHTTP resolves req.URL.Path[1:] (the path without its leading slash)
against the tree with an empty parameter list. -/
def serveMatch (fuel : Nat) (root : RTree) (path : String) (m : String) :
    Option (RTree × Chain × List (String × String)) :=
  rmatch fuel root (path.toList.drop 1) m []

/-- C2: the registered pattern /a/:x/*y matched against /a/v1/v2/v3 returns
the registered chain and binds x = v1 (exactly the one captured segment) and
y = v2/v3 (the entire remaining tail); the pattern /files/*path against
/files/a/b/c.txt binds path = a/b/c.txt, and against /files binds the empty
remainder path = "". -/
theorem c2_roundtrip_match :
    ((rSet 20 root0 "/a/:x/*y" "GET" [.plain .ok]).map (fun p =>
        (serveMatch 20 p.1 "/a/v1/v2/v3" "GET").map (fun res => (res.2.1, res.2.2))))
      = some (some ([.plain .ok], [("y", "v2/v3"), ("x", "v1")]))
    ∧ ((rSet 20 root0 "/files/*path" "GET" [.plain .ok]).map (fun p =>
        (serveMatch 20 p.1 "/files/a/b/c.txt" "GET").map (fun res => (res.2.1, res.2.2))))
      = some (some ([.plain .ok], [("path", "a/b/c.txt")]))
    ∧ ((rSet 20 root0 "/files/*path" "GET" [.plain .ok]).map (fun p =>
        (serveMatch 20 p.1 "/files" "GET").map (fun res => (res.2.1, res.2.2))))
      = some (some ([.plain .ok], [("path", "")])) :=
  ⟨rfl, rfl, rfl⟩

/-- The tree used against C1: a literal branch /u/a, a named branch /:id and
a wildcard branch /*rest all registered at the root level for GET, with
three distinct chains. -/
def c1tree : Option (RTree × List RWarn) :=
  (rSet 20 root0 "/u/a" "GET" [.plain (.skip 1)]).bind (fun p1 =>
    (rSet 20 p1.1 "/:id" "GET" [.plain (.skip 2)]).bind (fun p2 =>
      rSet 20 p2.1 "/*rest" "GET" [.plain (.skip 3)]))

/-- Counterexample for C1 as stated: at the root level a literal child u, a
named child :id and a wildcard child *rest are all registered, yet the
request /u/b, whose first segment equals the literal text u, resolves
through the wildcard branch (binding rest = u/b), because the literal
subtree fails on the remaining segment b; the literal branch is not always
taken for a segment equal to its text.  The same tree does resolve /u/a
through the literal branch. -/
theorem c1_literal_precedence_cex :
    (c1tree.map (fun p =>
        (serveMatch 20 p.1 "/u/b" "GET").map (fun res => (res.2.1, res.2.2))))
      = some (some ([.plain (.skip 3)], [("rest", "u/b")]))
    ∧ ([Entry.plain (.skip 3)] : Chain) ≠ [.plain (.skip 1)]
    ∧ (c1tree.map (fun p =>
        (serveMatch 20 p.1 "/u/a" "GET").map (fun res => (res.2.1, res.2.2))))
      = some (some ([.plain (.skip 1)], [])) :=
  ⟨rfl, by decide, rfl⟩

/-- The tree used against C6: a named branch /:id and a wildcard branch
/*rest registered at the same root position, with distinct chains. -/
def c6tree : Option (RTree × List RWarn) :=
  (rSet 20 root0 "/:id" "GET" [.plain .ok]).bind (fun p1 =>
    rSet 20 p1.1 "/*rest" "GET" [.plain (.skip 1)])

/-- Counterexample for C6 as stated: registering /:id and then /*rest leaves
the root with both a named child and a wildcard child, and the second
registration emits no warning at all — the named and wildcard branch kinds
are not mutually exclusive at a tree position and their coexistence is
silently allowed. -/
theorem c6_branch_exclusivity_cex :
    (c6tree.map (fun p => (p.2, p.1.colon.isSome, p.1.wild.isSome)))
      = some ([], true, true) :=
  rfl

/-- The tree used for the named-name-conflict half of C6: /:a/x registered
first, then /:b/y with a different parameter name at the same position. -/
def c6btree : Option (RTree × List RWarn) :=
  (rSet 20 root0 "/:a/x" "GET" [.plain .ok]).bind (fun p1 =>
    rSet 20 p1.1 "/:b/y" "GET" [.plain (.skip 1)])

/-- C6 (amended): a node keeps at most one named child and at most one
wildcard child in dedicated slots, but the two kinds may coexist at one
position, registered silently (no warning), and at request time the named
child is preferred and the wildcard is a fallback; registering a second
distinct named-parameter name at an already-named position does emit a
variable-path-conflict warning and the first name wins (the new subtree is
attached under the first-name node). -/
theorem c6_branch_exclusivity_amended :
    (c6btree.map (fun p =>
        (p.2, p.1.colon.map (fun c => (c.frag, c.subs.map RTree.frag)))))
      = some ([.varConflict [':', 'a'] [':', 'b']], some ([':', 'a'], [['x'], ['y']]))
    ∧ (c6tree.map (fun p =>
        (p.2, (serveMatch 20 p.1 "/zz" "GET").map (fun res => (res.2.1, res.2.2)))))
      = some ([], some ([.plain .ok], [("id", "zz")]))
    ∧ (c6tree.map (fun p =>
        (serveMatch 20 p.1 "/zz/deeper" "GET").map (fun res => (res.2.1, res.2.2))))
      = some (some ([.plain (.skip 1)], [("rest", "zz/deeper")])) :=
  ⟨rfl, rfl, rfl⟩

/-- The two-level tree used against C5: the root carries after-middleware a2
and its literal child u carries after-middleware a1 and a GET chain [h]. -/
def c5tree : RTree :=
  .node [] [] [.plain (.skip 2)] [] []
    [.node ['u'] [] [.plain (.skip 1)] [("GET", [.plain .ok])] [] [] none none] none none

/-- Counterexample for C5 as stated: after syncCache the child cache is
[h, a1, a2] — the after-middleware runs in node-to-root order (child a1
before root a2) — whereas the claimed root-to-node order would be
[h, a2, a1]. -/
theorem c5_cache_composition_cex :
    ((syncDown 5 c5tree []).subs.map (fun s => s.cache))
      = [[("GET", [.plain .ok, .plain (.skip 1), .plain (.skip 2)])]]
    ∧ ([Entry.plain .ok, .plain (.skip 1), .plain (.skip 2)] : Chain)
      ≠ [.plain .ok, .plain (.skip 2), .plain (.skip 1)] :=
  ⟨rfl, by decide⟩

/-- The before/after accumulator loop of syncCache in closed form: walking
the chain [node, parent, ..., root], before is the reversed concatenation
(root-to-node order) and after is the direct concatenation (node-to-root
order). -/
theorem collectBA_foldl (up : List (Chain × Chain)) :
    ∀ (b a : Chain),
      up.foldl (fun acc ba => (ba.1 ++ acc.1, acc.2 ++ ba.2)) (b, a)
        = ((up.map Prod.fst).reverse.flatten ++ b, a ++ (up.map Prod.snd).flatten) := by
  induction up with
  | nil => intro b a; simp
  | cons x up ih =>
    intro b a
    simp [ih, List.append_assoc]

theorem collectBA_eq (up : List (Chain × Chain)) :
    collectBA up
      = ((up.map Prod.fst).reverse.flatten, (up.map Prod.snd).flatten) := by
  have h := collectBA_foldl up [] []
  simpa [collectBA] using h

theorem lastSkipIdxFrom_none (l : Chain) (h : ∀ e ∈ l, isSkipB e = false) :
    ∀ i, lastSkipIdxFrom l i = none := by
  induction l with
  | nil => intro i; rfl
  | cons e rest ih =>
    intro i
    rw [lastSkipIdxFrom, ih (fun x hx => h x (List.mem_cons_of_mem e hx)) (i + 1)]
    simp [h e (List.mem_cons_self e rest)]

theorem lastSkipIdxFrom_last (l2 : Chain) (h2 : ∀ e ∈ l2, isSkipB e = false) :
    ∀ (l1 : Chain) (i : Nat),
      lastSkipIdxFrom (l1 ++ .skipBefore :: l2) i = some (i + l1.length) := by
  intro l1
  induction l1 with
  | nil =>
    intro i
    rw [List.nil_append, lastSkipIdxFrom, lastSkipIdxFrom_none l2 h2 (i + 1)]
    simp [isSkipB]
  | cons e l1 ih =>
    intro i
    rw [List.cons_append, lastSkipIdxFrom, ih (i + 1)]
    simp only [List.length_cons, Option.some.injEq]
    omega

theorem truncSkip_no_marker (l : Chain) (h : ∀ e ∈ l, isSkipB e = false) :
    truncSkip l = l := by
  rw [truncSkip, lastSkipIdx, lastSkipIdxFrom_none l h 0]

theorem truncSkip_last_marker (l1 l2 : Chain) (h2 : ∀ e ∈ l2, isSkipB e = false) :
    truncSkip (l1 ++ .skipBefore :: l2) = l2 := by
  rw [truncSkip, lastSkipIdx, lastSkipIdxFrom_last l2 h2 l1 0]
  have hsplit : l1 ++ Entry.skipBefore :: l2 = (l1 ++ [Entry.skipBefore]) ++ l2 := by simp
  have hlen : 0 + l1.length + 1 = (l1 ++ [Entry.skipBefore]).length := by simp
  show List.drop (0 + l1.length + 1) (l1 ++ Entry.skipBefore :: l2) = l2
  rw [hsplit, hlen, List.drop_left]

/-- C5 (amended): for every node and method, the cached composed chain is
the concatenation of the before-middleware of the node and its ancestors in
root-to-node order, then the node chain for that method, then the
after-middleware in node-to-root order (not root-to-node as stated); a
chain with no skip-before marker is kept whole, and everything up to and
including the last skip-before marker is truncated away; syncCache computes
each node cache from the (funcBefore, funcAfter) pairs of the node and its
ancestors. -/
theorem c5_cache_composition_amended :
    (∀ (handlers : List (String × Chain)) (up : List (Chain × Chain)),
      computeCache handlers up
        = handlers.map (fun p =>
            (p.1, truncSkip ((up.map Prod.fst).reverse.flatten ++ p.2
                    ++ (up.map Prod.snd).flatten))))
    ∧ (∀ l : Chain, (∀ e ∈ l, isSkipB e = false) → truncSkip l = l)
    ∧ (∀ l1 l2 : Chain, (∀ e ∈ l2, isSkipB e = false) →
        truncSkip (l1 ++ .skipBefore :: l2) = l2)
    ∧ (∀ (fuel : Nat) (frag : List Char) (fb fa : Chain)
        (handlers cache : List (String × Chain)) (subs : List RTree)
        (colon wild : Option RTree) (up : List (Chain × Chain)),
        (syncDown (fuel + 1) (.node frag fb fa handlers cache subs colon wild) up).cache
          = computeCache handlers ((fb, fa) :: up)) := by
  refine ⟨?_, truncSkip_no_marker, truncSkip_last_marker, ?_⟩
  · intro handlers up
    simp [computeCache, collectBA_eq]
  · intro fuel frag fb fa handlers cache subs colon wild up
    rfl

/-- Witness for c5_cache_composition_amended at concrete chains. -/
theorem c5_cache_composition_wit :
    truncSkip [Entry.plain .ok] = [Entry.plain .ok]
    ∧ truncSkip ([Entry.plain .ok] ++ .skipBefore :: [Entry.plain (.skip 1)])
        = [Entry.plain (.skip 1)] :=
  ⟨c5_cache_composition_amended.2.1 [.plain .ok] (by decide),
   c5_cache_composition_amended.2.2.1 [.plain .ok] [.plain (.skip 1)] (by decide)⟩

/-- C1 (amended): at every level match tries the branch kinds in the strict
order exact literal child, then named child, then wildcard child — but by
normal recursive return, not absolutely: (i) when the literal child of the
request segment matches the remaining path, its result is returned and the
named and wildcard branches are never consulted; (ii) when the literal
branch yields nothing, a successful named-child match is returned with the
segment bound to the parameter; (iii) when the literal and named branches
both fail and there is no wildcard child, the match fails.  A segment equal
to the literal text therefore resolves through the literal branch whenever
that subtree can finish the match, and may otherwise fall back to the named
or wildcard sibling (see the counterexample). -/
theorem c1_literal_precedence_amended :
    ∀ (fuel : Nat) (r : RTree) (u : List Char) (m : String)
      (ps : List (String × String)),
      ¬(u = [] ∨ u = ['/']) →
      ((∀ (t : RTree) (res : RTree × Chain × List (String × String)),
          findSub r.subs (matchSeg u).1 = some t →
          rmatch fuel t (matchSeg u).2 m ps = some res →
          rmatch (fuel + 1) r u m ps = some res)
      ∧ (∀ (c t2 : RTree) (fcs : Chain) (ps2 : List (String × String)),
          (∀ t : RTree, findSub r.subs (matchSeg u).1 = some t →
            rmatch fuel t (matchSeg u).2 m ps = none) →
          r.colon = some c →
          rmatch fuel c (matchSeg u).2 m ps = some (t2, fcs, ps2) →
          rmatch (fuel + 1) r u m ps
            = some (t2, fcs, setParamGo ps2 (fragParam c.frag) (String.mk (matchSeg u).1)))
      ∧ ((∀ t : RTree, findSub r.subs (matchSeg u).1 = some t →
            rmatch fuel t (matchSeg u).2 m ps = none) →
          (∀ c : RTree, r.colon = some c → rmatch fuel c (matchSeg u).2 m ps = none) →
          r.wild = none →
          rmatch (fuel + 1) r u m ps = none)) := by
  intro fuel r u m ps hu
  rcases r with ⟨frag, fb, fa, handlers, cache, subs, colon, wild⟩
  refine ⟨?_, ?_, ?_⟩
  · intro t res hf hm
    simp only [RTree.subs] at hf
    rw [rmatch.eq_def]
    simp only [if_neg hu, hf, hm]
  · intro c t2 fcs ps2 hfail hc hm
    simp only [RTree.subs] at hfail
    simp only [RTree.colon] at hc
    subst hc
    rw [rmatch.eq_def]
    rcases hfs : findSub subs (matchSeg u).1 with _ | t
    · simp only [if_neg hu, hfs, hm, RTree.frag]
    · simp only [if_neg hu, hfs, hfail t hfs, hm, RTree.frag]
  · intro hfail hcfail hw
    simp only [RTree.subs] at hfail
    simp only [RTree.wild] at hw
    subst hw
    rw [rmatch.eq_def]
    rcases hcol : colon with _ | c
    · subst hcol
      rcases hfs : findSub subs (matchSeg u).1 with _ | t
      · simp only [if_neg hu, hfs]
      · simp only [if_neg hu, hfs, hfail t hfs]
    · subst hcol
      have hcn := hcfail c rfl
      rcases hfs : findSub subs (matchSeg u).1 with _ | t
      · simp only [if_neg hu, hfs, hcn]
      · simp only [if_neg hu, hfs, hfail t hfs, hcn]

/-- Witness for c1_literal_precedence_amended at a concrete tree: a literal
child u and a named child :id both hold GET handlers; the one-segment
request u resolves through the literal branch with no parameter bound. -/
theorem c1_literal_precedence_wit :
    rmatch 20 (.node [] [] [] [] []
        [.node ['u'] [] [] [("GET", [.plain .ok])] [("GET", [.plain .ok])] [] none none]
        (some (.node [':', 'i', 'd'] [] [] [("GET", [.plain (.skip 1)])]
          [("GET", [.plain (.skip 1)])] [] none none)) none)
      ['u'] "GET" []
      = some (.node ['u'] [] [] [("GET", [.plain .ok])] [("GET", [.plain .ok])] [] none none,
          [.plain .ok], []) :=
  (c1_literal_precedence_amended 19
      (.node [] [] [] [] []
        [.node ['u'] [] [] [("GET", [.plain .ok])] [("GET", [.plain .ok])] [] none none]
        (some (.node [':', 'i', 'd'] [] [] [("GET", [.plain (.skip 1)])]
          [("GET", [.plain (.skip 1)])] [] none none)) none)
      ['u'] "GET" [] (by decide)).1
    (.node ['u'] [] [] [("GET", [.plain .ok])] [("GET", [.plain .ok])] [] none none)
    (.node ['u'] [] [] [("GET", [.plain .ok])] [("GET", [.plain .ok])] [] none none,
      [.plain .ok], [])
    rfl rfl

/-- C9: registering the pattern /u for GET a second time — whatever chain
was registered first — emits the handler-already-exists warning, and Match
afterward returns the second registration's chain (here the concrete chain
[ok, skip 5]), independent of the first chain. -/
theorem c9_reregistration (hs1 : Chain) (h1 : hs1 ≠ []) :
    ∃ t1 t2 : RTree,
      rSet 20 root0 "/u" "GET" hs1 = some (t1, [])
      ∧ rSet 20 t1 "/u" "GET" [.plain .ok, .plain (.skip 5)]
          = some (t2, [.handlerExists])
      ∧ (serveMatch 20 t2 "/u" "GET").map (fun res => (res.2.1, res.2.2))
          = some ([.plain .ok, .plain (.skip 5)], []) := by
  have hl1 : ¬(hs1.length = 0) := fun h => h1 (List.length_eq_zero.mp h)
  refine ⟨.node [] [] [] [] []
      [.node ['u'] [] [] [("GET", hs1.filter (fun e => !isDescE e))]
        [("GET", truncSkip (hs1.filter (fun e => !isDescE e) ++ []))] [] none none]
      none none,
    .node [] [] [] [] []
      [.node ['u'] [] [] [("GET", [.plain .ok, .plain (.skip 5)])]
        [("GET", [.plain .ok, .plain (.skip 5)])] [] none none]
      none none, ?_, rfl, rfl⟩
  rw [rSet, if_neg (by decide), if_neg hl1]
  rfl

/-- Witness for c9_reregistration at a concrete first chain. -/
theorem c9_reregistration_wit :
    ∃ t1 t2 : RTree,
      rSet 20 root0 "/u" "GET" [.plain .ok] = some (t1, [])
      ∧ rSet 20 t1 "/u" "GET" [.plain .ok, .plain (.skip 5)]
          = some (t2, [.handlerExists])
      ∧ (serveMatch 20 t2 "/u" "GET").map (fun res => (res.2.1, res.2.2))
          = some ([.plain .ok, .plain (.skip 5)], []) :=
  c9_reregistration [.plain .ok] (by decide)

end Vigo
